import Mathlib

/-!
Verification of the bank-account chaincode
(`asset-transfer-basic/chaincode-go/chaincode/smartcontract.go`).

The chaincode is a stateless logic layer over a key-value world state.
We embed the world state as an association list from string keys to stored
values.  A stored value is the persisted bytes of a record: either bytes
that decode (unmarshal) to an `Account`, or present-but-corrupt bytes that
fail to decode.  Balances are embedded as exact rationals standing for the
numeric balance values; store reads and writes themselves never fail in the
model (transport failures belong to the external store collaborator).
-/

/-- The `Account` record of the chaincode: ID, Owner, Balance. -/
structure Account where
  ID : String
  Owner : String
  Balance : ℚ
deriving DecidableEq, Repr

/-- A value held in the world state under some key: either bytes that
decode as an `Account`, or present bytes that fail to decode. -/
inductive StoredVal where
  | acct (a : Account)
  | corrupt
deriving DecidableEq, Repr

/-- The world state: an association list from keys to stored values,
in store iteration order. -/
abbrev Store := List (String × StoredVal)

/-- Errors surfaced by the chaincode operations, one per `fmt.Errorf`
site (plus the JSON decoding failure path). -/
inductive CCError where
  | alreadyExists (id : String)
  | notFound (id : String)
  | insufficientFunds (fromID : String)
  | decodingError
deriving DecidableEq, Repr

/-- `ctx.GetStub().GetState(key)`: the first binding for `key`, or `none`
when the key is absent. -/
def getState : Store → String → Option StoredVal
  | [], _ => none
  | (k', v) :: rest, k => if k' = k then some v else getState rest k

/-- `ctx.GetStub().PutState(key, value)`: replace the first binding for
`key`, or append a fresh binding when the key is absent. -/
def putState : Store → String → StoredVal → Store
  | [], k, v => [(k, v)]
  | (k', v') :: rest, k, v =>
      if k' = k then (k, v) :: rest else (k', v') :: putState rest k v

/-- `ctx.GetStub().DelState(key)`: remove every binding for `key`. -/
def delState (st : Store) (k : String) : Store :=
  st.filter (fun p => p.1 != k)

/-- `json.Unmarshal` of a stored value into an `Account`. -/
def unmarshalAccount : StoredVal → Except CCError Account
  | StoredVal.acct a => Except.ok a
  | StoredVal.corrupt => Except.error CCError.decodingError

/-- `ReadAccount`: get the bytes for `id`; fail `notFound` when absent,
otherwise unmarshal. -/
def ReadAccount (st : Store) (id : String) : Except CCError Account :=
  match getState st id with
  | none => Except.error (CCError.notFound id)
  | some v => unmarshalAccount v

/-- `AccountExists`: `accountJSON != nil` — a pure presence probe that
never decodes the stored bytes. -/
def AccountExists (st : Store) (id : String) : Bool :=
  (getState st id).isSome

/-- `CreateAccount`: fail `alreadyExists` when the id is present, else
marshal and put `Account{ID: id, Owner: owner, Balance: balance}`. -/
def CreateAccount (st : Store) (id owner : String) (balance : ℚ) :
    Except CCError Store :=
  if AccountExists st id then
    Except.error (CCError.alreadyExists id)
  else
    Except.ok (putState st id (StoredVal.acct ⟨id, owner, balance⟩))

/-- `UpdateAccount`: fail `notFound` when the id is absent, else put the
full replacement record `Account{ID: id, Owner: owner, Balance: balance}`. -/
def UpdateAccount (st : Store) (id owner : String) (balance : ℚ) :
    Except CCError Store :=
  if AccountExists st id then
    Except.ok (putState st id (StoredVal.acct ⟨id, owner, balance⟩))
  else
    Except.error (CCError.notFound id)

/-- `DeleteAccount`: fail `notFound` when the id is absent, else delete
the key. -/
def DeleteAccount (st : Store) (id : String) : Except CCError Store :=
  if AccountExists st id then
    Except.ok (delState st id)
  else
    Except.error (CCError.notFound id)

/-- `GetAllAccounts`: iterate the full range of the store in order,
unmarshal each value, abort the whole enumeration on the first decoding
failure. -/
def GetAllAccounts : Store → Except CCError (List Account)
  | [] => Except.ok []
  | (_, v) :: rest =>
    match unmarshalAccount v with
    | Except.error e => Except.error e
    | Except.ok a =>
      match GetAllAccounts rest with
      | Except.error e => Except.error e
      | Except.ok l => Except.ok (a :: l)

/-- `TransferFunds`: read `fromID`, read `toID` (both before any write),
check `fromAccount.Balance < amount`, then subtract/add in memory and put
`fromID` first and `toID` second. -/
def TransferFunds (st : Store) (fromID toID : String) (amount : ℚ) :
    Except CCError Store :=
  match ReadAccount st fromID with
  | Except.error e => Except.error e
  | Except.ok fromAccount =>
    match ReadAccount st toID with
    | Except.error e => Except.error e
    | Except.ok toAccount =>
      if fromAccount.Balance < amount then
        Except.error (CCError.insufficientFunds fromID)
      else
        Except.ok (putState
          (putState st fromID
            (StoredVal.acct { fromAccount with Balance := fromAccount.Balance - amount }))
          toID
          (StoredVal.acct { toAccount with Balance := toAccount.Balance + amount }))

/-- The seed accounts written by `InitLedger`. -/
def initialAccounts : List Account :=
  [⟨"account1", "Tomoko", 1000⟩,
   ⟨"account2", "Brad", 2000⟩,
   ⟨"account3", "Jin Soo", 3000⟩,
   ⟨"account4", "Max", 4000⟩,
   ⟨"account5", "Adriana", 5000⟩,
   ⟨"account6", "Michel", 6000⟩]

/-- `InitLedger`: unconditionally put each seed account under its own ID. -/
def InitLedger (st : Store) : Store :=
  initialAccounts.foldl (fun s a => putState s a.ID (StoredVal.acct a)) st

/-- The world state after an invocation: a chaincode error aborts the
transaction, so no writes commit and the state is unchanged. -/
def postState (st : Store) : Except CCError Store → Store
  | Except.ok st' => st'
  | Except.error _ => st

/-- The stored balance under a key, when the key holds a decodable record. -/
def storedBalance (st : Store) (id : String) : Option ℚ :=
  match getState st id with
  | some (StoredVal.acct a) => some a.Balance
  | _ => none

/-! ### Store lemmas -/

theorem getState_putState_self (st : Store) (k : String) (v : StoredVal) :
    getState (putState st k v) k = some v := by
  induction st with
  | nil => simp [putState, getState]
  | cons p rest ih =>
    obtain ⟨k', v'⟩ := p
    by_cases h : k' = k
    · simp [putState, h, getState]
    · simp [putState, h, getState, ih]

theorem getState_putState_ne (st : Store) (k k' : String) (v : StoredVal)
    (h : k' ≠ k) : getState (putState st k v) k' = getState st k' := by
  have h' : ¬ k = k' := fun hc => h hc.symm
  induction st with
  | nil => simp [putState, getState, h']
  | cons p rest ih =>
    obtain ⟨k₀, v₀⟩ := p
    by_cases hk : k₀ = k
    · subst hk
      simp [putState, getState, h']
    · simp [putState, hk, getState, ih]

theorem readAccount_ok_iff (st : Store) (id : String) (a : Account) :
    ReadAccount st id = Except.ok a ↔ getState st id = some (StoredVal.acct a) := by
  unfold ReadAccount
  cases hg : getState st id with
  | none => simp
  | some v => cases v <;> simp [unmarshalAccount]

theorem storedBalance_of_getState (st : Store) (id : String) (a : Account)
    (h : getState st id = some (StoredVal.acct a)) :
    storedBalance st id = some a.Balance := by
  unfold storedBalance
  rw [h]

theorem transferFunds_ok_of (st : Store) (f t : String) (m : ℚ) (fa ta : Account)
    (hf : getState st f = some (StoredVal.acct fa))
    (ht : getState st t = some (StoredVal.acct ta))
    (hb : ¬ fa.Balance < m) :
    TransferFunds st f t m = Except.ok (putState
      (putState st f (StoredVal.acct { fa with Balance := fa.Balance - m })) t
      (StoredVal.acct { ta with Balance := ta.Balance + m })) := by
  have hf' : ReadAccount st f = Except.ok fa := (readAccount_ok_iff st f fa).mpr hf
  have ht' : ReadAccount st t = Except.ok ta := (readAccount_ok_iff st t ta).mpr ht
  unfold TransferFunds
  simp only [hf', ht']
  rw [if_neg hb]

theorem transferFunds_ok_inv (st : Store) (f t : String) (m : ℚ) (st' : Store)
    (h : TransferFunds st f t m = Except.ok st') :
    ∃ fa ta, getState st f = some (StoredVal.acct fa) ∧
      getState st t = some (StoredVal.acct ta) ∧ ¬ fa.Balance < m ∧
      st' = putState
        (putState st f (StoredVal.acct { fa with Balance := fa.Balance - m })) t
        (StoredVal.acct { ta with Balance := ta.Balance + m }) := by
  unfold TransferFunds at h
  split at h
  · exact absurd h (by simp)
  · rename_i fa hf
    split at h
    · exact absurd h (by simp)
    · rename_i ta ht
      split at h
      · exact absurd h (by simp)
      · rename_i hb
        injection h with h
        exact ⟨fa, ta, (readAccount_ok_iff st f fa).mp hf,
          (readAccount_ok_iff st t ta).mp ht, hb, h.symm⟩

/-! ### Claims -/

/-- Claim C1 (code bug): `TransferFunds(A, A, m)` with stored balance `b ≥ m`
does not leave the balance at `b`.  Both reads happen before either write, so
the write of `b - m` under `A` is overwritten by the write of `b + m` under the
same key: on a ledger holding account1 with balance 100, a self-transfer of 30
succeeds and leaves the stored balance at 130, not 100. -/
theorem c1_self_transfer_corrupts_balance :
    TransferFunds [("account1", StoredVal.acct ⟨"account1", "Tomoko", 100⟩)]
        "account1" "account1" 30
      = Except.ok [("account1", StoredVal.acct ⟨"account1", "Tomoko", 130⟩)]
    ∧ storedBalance
        (postState [("account1", StoredVal.acct ⟨"account1", "Tomoko", 100⟩)]
          (TransferFunds [("account1", StoredVal.acct ⟨"account1", "Tomoko", 100⟩)]
            "account1" "account1" 30)) "account1" = some 130
    ∧ (130 : ℚ) ≠ 100 := by
  refine ⟨?_, ?_, by norm_num⟩ <;>
    norm_num +decide [TransferFunds, ReadAccount, getState, unmarshalAccount,
      putState, postState, storedBalance]

/-- Claim C2 (amended to transfers between two distinct accounts): if
`fromID ≠ toID` and the transfer succeeds, the source's stored balance drops by
the amount, the destination's rises by the amount, and the sum of the two
stored balances is conserved. -/
theorem c2_transfer_conservation (st : Store) (f t : String) (m : ℚ) (st' : Store)
    (hft : f ≠ t) (h : TransferFunds st f t m = Except.ok st') :
    ∃ bf bt, storedBalance st f = some bf ∧ storedBalance st t = some bt ∧
      storedBalance st' f = some (bf - m) ∧ storedBalance st' t = some (bt + m) ∧
      (bf - m) + (bt + m) = bf + bt := by
  obtain ⟨fa, ta, hf, ht, hb, hst'⟩ := transferFunds_ok_inv st f t m st' h
  subst hst'
  refine ⟨fa.Balance, ta.Balance,
    storedBalance_of_getState st f fa hf,
    storedBalance_of_getState st t ta ht, ?_, ?_, by ring⟩
  · unfold storedBalance
    rw [getState_putState_ne _ t f _ hft, getState_putState_self]
  · unfold storedBalance
    rw [getState_putState_self]

/-- Counterexample to claim C2 as stated: a self-transfer satisfies the
claim's hypotheses (both `fromID` and `toID` exist and the source balance
covers the amount) and succeeds, yet the sum of the stored balances of
`fromID` and `toID` after the call differs from the sum before. -/
theorem c2_counterexample_self_transfer :
    TransferFunds [("a", StoredVal.acct ⟨"a", "o", 100⟩)] "a" "a" 30
      = Except.ok [("a", StoredVal.acct ⟨"a", "o", 130⟩)]
    ∧ storedBalance [("a", StoredVal.acct ⟨"a", "o", 100⟩)] "a" = some 100
    ∧ storedBalance [("a", StoredVal.acct ⟨"a", "o", 130⟩)] "a" = some 130
    ∧ ((130 : ℚ) + 130 ≠ 100 + 100) := by
  refine ⟨?_, ?_, ?_, by norm_num⟩ <;>
    norm_num +decide [TransferFunds, ReadAccount, getState, unmarshalAccount,
      putState, storedBalance]

/-- Concrete instance of `c2_transfer_conservation`: transferring 300 from
account1 (balance 1000) to account2 (balance 2000). -/
theorem c2_witness :
    ∃ bf bt,
      storedBalance [("account1", StoredVal.acct ⟨"account1", "Tomoko", 1000⟩),
        ("account2", StoredVal.acct ⟨"account2", "Brad", 2000⟩)] "account1" = some bf ∧
      storedBalance [("account1", StoredVal.acct ⟨"account1", "Tomoko", 1000⟩),
        ("account2", StoredVal.acct ⟨"account2", "Brad", 2000⟩)] "account2" = some bt ∧
      storedBalance [("account1", StoredVal.acct ⟨"account1", "Tomoko", 700⟩),
        ("account2", StoredVal.acct ⟨"account2", "Brad", 2300⟩)] "account1"
        = some (bf - 300) ∧
      storedBalance [("account1", StoredVal.acct ⟨"account1", "Tomoko", 700⟩),
        ("account2", StoredVal.acct ⟨"account2", "Brad", 2300⟩)] "account2"
        = some (bt + 300) ∧
      (bf - 300) + (bt + 300) = bf + bt :=
  c2_transfer_conservation
    [("account1", StoredVal.acct ⟨"account1", "Tomoko", 1000⟩),
     ("account2", StoredVal.acct ⟨"account2", "Brad", 2000⟩)]
    "account1" "account2" 300
    [("account1", StoredVal.acct ⟨"account1", "Tomoko", 700⟩),
     ("account2", StoredVal.acct ⟨"account2", "Brad", 2300⟩)]
    (by decide)
    (by norm_num +decide [TransferFunds, ReadAccount, getState, unmarshalAccount,
      putState])

/-- Claim C3: when both accounts exist and the amount exceeds the source's
stored balance, `TransferFunds` fails with the insufficient-funds error naming
`fromID`, and the committed world state is unchanged. -/
theorem c3_insufficient_funds_rejected (st : Store) (f t : String)
    (fa ta : Account) (m : ℚ)
    (hf : getState st f = some (StoredVal.acct fa))
    (ht : getState st t = some (StoredVal.acct ta))
    (hm : fa.Balance < m) :
    TransferFunds st f t m = Except.error (CCError.insufficientFunds f) ∧
    postState st (TransferFunds st f t m) = st := by
  have hf' : ReadAccount st f = Except.ok fa := (readAccount_ok_iff st f fa).mpr hf
  have ht' : ReadAccount st t = Except.ok ta := (readAccount_ok_iff st t ta).mpr ht
  have herr : TransferFunds st f t m = Except.error (CCError.insufficientFunds f) := by
    unfold TransferFunds
    simp only [hf', ht']
    rw [if_pos hm]
  exact ⟨herr, by rw [herr]; rfl⟩

/-- Concrete instance of `c3_insufficient_funds_rejected`: transferring 99999
from account1 (balance 1000) to account2 fails and commits nothing. -/
theorem c3_witness :
    TransferFunds [("account1", StoredVal.acct ⟨"account1", "Tomoko", 1000⟩),
        ("account2", StoredVal.acct ⟨"account2", "Brad", 2000⟩)]
        "account1" "account2" 99999
      = Except.error (CCError.insufficientFunds "account1") ∧
    postState [("account1", StoredVal.acct ⟨"account1", "Tomoko", 1000⟩),
        ("account2", StoredVal.acct ⟨"account2", "Brad", 2000⟩)]
      (TransferFunds [("account1", StoredVal.acct ⟨"account1", "Tomoko", 1000⟩),
        ("account2", StoredVal.acct ⟨"account2", "Brad", 2000⟩)]
        "account1" "account2" 99999)
      = [("account1", StoredVal.acct ⟨"account1", "Tomoko", 1000⟩),
         ("account2", StoredVal.acct ⟨"account2", "Brad", 2000⟩)] :=
  c3_insufficient_funds_rejected
    [("account1", StoredVal.acct ⟨"account1", "Tomoko", 1000⟩),
     ("account2", StoredVal.acct ⟨"account2", "Brad", 2000⟩)]
    "account1" "account2" ⟨"account1", "Tomoko", 1000⟩ ⟨"account2", "Brad", 2000⟩
    99999 (by decide) (by decide) (by norm_num)

/-- Counterexample to claim C4 as stated: `CreateAccount` performs no
validation of the id, so creating the empty-string id on an empty store
succeeds and stores an Account record whose ID is the empty string. -/
theorem c4_counterexample_empty_id :
    CreateAccount [] "" "Owner" 5
      = Except.ok [("", StoredVal.acct ⟨"", "Owner", 5⟩)] := rfl

/-- Claim C4 (amended): no operation validates that an id is non-empty; in
particular `CreateAccount` on the empty-string id succeeds whenever that key
is absent, and the store then holds an Account whose ID is the empty
string. -/
theorem c4_create_accepts_empty_id (st : Store) (owner : String) (b : ℚ)
    (h : getState st "" = none) :
    CreateAccount st "" owner b
      = Except.ok (putState st "" (StoredVal.acct ⟨"", owner, b⟩)) ∧
    getState (putState st "" (StoredVal.acct ⟨"", owner, b⟩)) ""
      = some (StoredVal.acct ⟨"", owner, b⟩) := by
  constructor
  · unfold CreateAccount AccountExists
    rw [h]
    rfl
  · exact getState_putState_self st "" _

/-- Concrete instance of `c4_create_accepts_empty_id` on a one-account
store. -/
theorem c4_witness :
    CreateAccount [("account1", StoredVal.acct ⟨"account1", "Tomoko", 1000⟩)]
        "" "Nobody" 7
      = Except.ok (putState [("account1", StoredVal.acct ⟨"account1", "Tomoko", 1000⟩)]
          "" (StoredVal.acct ⟨"", "Nobody", 7⟩)) ∧
    getState (putState [("account1", StoredVal.acct ⟨"account1", "Tomoko", 1000⟩)]
        "" (StoredVal.acct ⟨"", "Nobody", 7⟩)) ""
      = some (StoredVal.acct ⟨"", "Nobody", 7⟩) :=
  c4_create_accepts_empty_id
    [("account1", StoredVal.acct ⟨"account1", "Tomoko", 1000⟩)] "Nobody" 7
    (by decide)

/-- Claim C5: `CreateAccount` on a present id fails with the already-exists
error and commits nothing, leaving the prior record for that id unchanged;
`UpdateAccount` and `DeleteAccount` on an absent id fail with the not-found
error and commit nothing. -/
theorem c5_existence_gating (st : Store) (id owner : String) (b : ℚ) :
    (∀ v, getState st id = some v →
      CreateAccount st id owner b = Except.error (CCError.alreadyExists id) ∧
      postState st (CreateAccount st id owner b) = st ∧
      getState (postState st (CreateAccount st id owner b)) id = some v) ∧
    (getState st id = none →
      UpdateAccount st id owner b = Except.error (CCError.notFound id) ∧
      postState st (UpdateAccount st id owner b) = st) ∧
    (getState st id = none →
      DeleteAccount st id = Except.error (CCError.notFound id) ∧
      postState st (DeleteAccount st id) = st) := by
  refine ⟨?_, ?_, ?_⟩
  · intro v hv
    have herr : CreateAccount st id owner b
        = Except.error (CCError.alreadyExists id) := by
      unfold CreateAccount AccountExists
      rw [hv]
      rfl
    exact ⟨herr, by rw [herr]; rfl, by rw [herr]; exact hv⟩
  · intro hnone
    have herr : UpdateAccount st id owner b
        = Except.error (CCError.notFound id) := by
      unfold UpdateAccount AccountExists
      rw [hnone]
      rfl
    exact ⟨herr, by rw [herr]; rfl⟩
  · intro hnone
    have herr : DeleteAccount st id = Except.error (CCError.notFound id) := by
      unfold DeleteAccount AccountExists
      rw [hnone]
      rfl
    exact ⟨herr, by rw [herr]; rfl⟩

/-- Concrete instances of `c5_existence_gating` on a one-account store. -/
theorem c5_witness :
    CreateAccount [("x", StoredVal.acct ⟨"x", "o", 1⟩)] "x" "p" 2
      = Except.error (CCError.alreadyExists "x") ∧
    UpdateAccount [("x", StoredVal.acct ⟨"x", "o", 1⟩)] "y" "p" 2
      = Except.error (CCError.notFound "y") ∧
    DeleteAccount [("x", StoredVal.acct ⟨"x", "o", 1⟩)] "y"
      = Except.error (CCError.notFound "y") :=
  ⟨((c5_existence_gating [("x", StoredVal.acct ⟨"x", "o", 1⟩)] "x" "p" 2).1
      (StoredVal.acct ⟨"x", "o", 1⟩) (by decide)).1,
   ((c5_existence_gating [("x", StoredVal.acct ⟨"x", "o", 1⟩)] "y" "p" 2).2.1
      (by decide)).1,
   ((c5_existence_gating [("x", StoredVal.acct ⟨"x", "o", 1⟩)] "y" "p" 2).2.2
      (by decide)).1⟩

/-- Claim C6: when the id is absent, `CreateAccount(id, owner, balance)`
succeeds and a subsequent `ReadAccount(id)` on the new state returns the
Account with exactly that ID, Owner and Balance. -/
theorem c6_create_read_roundtrip (st : Store) (id owner : String) (b : ℚ)
    (h : getState st id = none) :
    ∃ st', CreateAccount st id owner b = Except.ok st' ∧
      ReadAccount st' id = Except.ok ⟨id, owner, b⟩ := by
  refine ⟨putState st id (StoredVal.acct ⟨id, owner, b⟩), ?_, ?_⟩
  · unfold CreateAccount AccountExists
    rw [h]
    rfl
  · exact (readAccount_ok_iff _ _ _).mpr (getState_putState_self st id _)

/-- Concrete instance of `c6_create_read_roundtrip` on the empty store. -/
theorem c6_witness :
    ∃ st', CreateAccount [] "account9" "Ada" 42 = Except.ok st' ∧
      ReadAccount st' "account9" = Except.ok ⟨"account9", "Ada", 42⟩ :=
  c6_create_read_roundtrip [] "account9" "Ada" 42 rfl

/-- Claim C7: `TransferFunds` does not reject non-positive amounts: for two
distinct existing accounts with source balance at least the amount, a
transfer of an amount ≤ 0 succeeds, subtracting the amount from the source's
stored balance and adding it to the destination's (a negative amount moves
funds in reverse). -/
theorem c7_nonpositive_amount_not_rejected (st : Store) (f t : String)
    (fa ta : Account) (m : ℚ) (hft : f ≠ t)
    (hf : getState st f = some (StoredVal.acct fa))
    (ht : getState st t = some (StoredVal.acct ta))
    (hm : m ≤ 0) (hbal : m ≤ fa.Balance) :
    ∃ st', TransferFunds st f t m = Except.ok st' ∧
      storedBalance st' f = some (fa.Balance - m) ∧
      storedBalance st' t = some (ta.Balance + m) := by
  have hb : ¬ fa.Balance < m := not_lt.mpr hbal
  refine ⟨_, transferFunds_ok_of st f t m fa ta hf ht hb, ?_, ?_⟩
  · unfold storedBalance
    rw [getState_putState_ne _ t f _ hft, getState_putState_self]
  · unfold storedBalance
    rw [getState_putState_self]

/-- Concrete instance of `c7_nonpositive_amount_not_rejected`: a transfer of
-5 between two seeded accounts succeeds and moves funds in reverse. -/
theorem c7_witness :
    ∃ st', TransferFunds [("account1", StoredVal.acct ⟨"account1", "Tomoko", 1000⟩),
        ("account2", StoredVal.acct ⟨"account2", "Brad", 2000⟩)]
        "account1" "account2" (-5) = Except.ok st' ∧
      storedBalance st' "account1" = some (1000 - (-5)) ∧
      storedBalance st' "account2" = some (2000 + (-5)) :=
  c7_nonpositive_amount_not_rejected
    [("account1", StoredVal.acct ⟨"account1", "Tomoko", 1000⟩),
     ("account2", StoredVal.acct ⟨"account2", "Brad", 2000⟩)]
    "account1" "account2" ⟨"account1", "Tomoko", 1000⟩ ⟨"account2", "Brad", 2000⟩
    (-5) (by decide) (by decide) (by decide) (by norm_num) (by norm_num)

/-- Claim C8: `AccountExists` is a pure presence probe: it returns true
exactly when the store holds a value under the id, and it never decodes that
value — in particular a present-but-corrupt record still reports true. -/
theorem c8_exists_probe (st : Store) (id : String) :
    (AccountExists st id = true ↔ ∃ v, getState st id = some v) ∧
    (getState st id = some StoredVal.corrupt → AccountExists st id = true) := by
  constructor
  · unfold AccountExists
    simp [Option.isSome_iff_exists]
  · intro h
    unfold AccountExists
    rw [h]
    rfl

/-- Concrete instance of `c8_exists_probe`: a corrupt record still reports
present. -/
theorem c8_witness :
    AccountExists [("k", StoredVal.corrupt)] "k" = true :=
  (c8_exists_probe [("k", StoredVal.corrupt)] "k").2 rfl

/-- Claim C9: when every stored record decodes, `GetAllAccounts` returns a
fully materialized list holding exactly the decoded Account of every record
in the store, in store order; when any stored record fails to decode, the
whole enumeration fails with the decoding error and no partial list is
returned. -/
theorem c9_get_all_accounts (st : Store) :
    ((∀ p ∈ st, p.2 ≠ StoredVal.corrupt) →
      ∃ l, GetAllAccounts st = Except.ok l ∧
        st.map Prod.snd = l.map StoredVal.acct) ∧
    ((∃ p ∈ st, p.2 = StoredVal.corrupt) →
      GetAllAccounts st = Except.error CCError.decodingError) := by
  induction st with
  | nil =>
    constructor
    · intro _
      exact ⟨[], rfl, rfl⟩
    · rintro ⟨p, hp, _⟩
      cases hp
  | cons q rest ih =>
    obtain ⟨k, v⟩ := q
    constructor
    · intro hall
      have hv : v ≠ StoredVal.corrupt := hall (k, v) (List.mem_cons_self _ _)
      cases v with
      | corrupt => exact absurd rfl hv
      | acct a =>
        obtain ⟨l, hl, hmap⟩ :=
          ih.1 (fun p hp => hall p (List.mem_cons_of_mem _ hp))
        refine ⟨a :: l, ?_, ?_⟩
        · unfold GetAllAccounts
          simp [unmarshalAccount, hl]
        · simp [hmap]
    · rintro ⟨p, hp, hcor⟩
      rcases List.mem_cons.mp hp with heq | hmem
      · rw [heq] at hcor
        simp only at hcor
        subst hcor
        rfl
      · have hrest := ih.2 ⟨p, hmem, hcor⟩
        cases v with
        | corrupt => rfl
        | acct a =>
          unfold GetAllAccounts
          simp [unmarshalAccount, hrest]

/-- Concrete instances of `c9_get_all_accounts`: a store of two decodable
records enumerates both, and a store holding one corrupt record fails
wholesale. -/
theorem c9_witness :
    (∃ l, GetAllAccounts [("a", StoredVal.acct ⟨"a", "o", 1⟩),
        ("b", StoredVal.acct ⟨"b", "p", 2⟩)] = Except.ok l ∧
      [("a", StoredVal.acct ⟨"a", "o", 1⟩),
        ("b", StoredVal.acct ⟨"b", "p", 2⟩)].map Prod.snd
        = l.map StoredVal.acct) ∧
    GetAllAccounts [("a", StoredVal.acct ⟨"a", "o", 1⟩), ("b", StoredVal.corrupt)]
      = Except.error CCError.decodingError :=
  ⟨(c9_get_all_accounts [("a", StoredVal.acct ⟨"a", "o", 1⟩),
      ("b", StoredVal.acct ⟨"b", "p", 2⟩)]).1 (by decide),
   (c9_get_all_accounts [("a", StoredVal.acct ⟨"a", "o", 1⟩),
      ("b", StoredVal.corrupt)]).2
     ⟨("b", StoredVal.corrupt), by decide, rfl⟩⟩

/-! ### Key/ID agreement (claim C10) -/

/-- Every binding in the store whose value decodes holds an Account whose ID
field equals the key it is stored under. -/
def KeyIdAgree (st : Store) : Prop :=
  ∀ p ∈ st, ∀ a, p.2 = StoredVal.acct a → a.ID = p.1

/-- World states reachable from the empty store by chaincode invocations. -/
inductive Reachable : Store → Prop where
  | empty : Reachable []
  | init : ∀ {st}, Reachable st → Reachable (InitLedger st)
  | create : ∀ {st st' : Store} {id owner : String} {b : ℚ}, Reachable st →
      CreateAccount st id owner b = Except.ok st' → Reachable st'
  | update : ∀ {st st' : Store} {id owner : String} {b : ℚ}, Reachable st →
      UpdateAccount st id owner b = Except.ok st' → Reachable st'
  | delete : ∀ {st st' : Store} {id : String}, Reachable st →
      DeleteAccount st id = Except.ok st' → Reachable st'
  | transfer : ∀ {st st' : Store} {f t : String} {m : ℚ}, Reachable st →
      TransferFunds st f t m = Except.ok st' → Reachable st'

theorem mem_putState (st : Store) (k : String) (v : StoredVal)
    (p : String × StoredVal) (hp : p ∈ putState st k v) :
    p ∈ st ∨ p = (k, v) := by
  induction st with
  | nil =>
    right
    simpa [putState] using hp
  | cons q rest ih =>
    obtain ⟨k₀, v₀⟩ := q
    by_cases h : k₀ = k
    · rw [putState, if_pos h] at hp
      rcases List.mem_cons.mp hp with h1 | h1
      · right; exact h1
      · left; exact List.mem_cons_of_mem _ h1
    · rw [putState, if_neg h] at hp
      rcases List.mem_cons.mp hp with h1 | h1
      · left; simp [h1]
      · rcases ih h1 with h2 | h2
        · left; exact List.mem_cons_of_mem _ h2
        · right; exact h2

theorem getState_mem (st : Store) (k : String) (v : StoredVal)
    (h : getState st k = some v) : (k, v) ∈ st := by
  induction st with
  | nil => cases h
  | cons q rest ih =>
    obtain ⟨k₀, v₀⟩ := q
    by_cases hk : k₀ = k
    · subst hk
      rw [getState, if_pos rfl] at h
      injection h with h
      subst h
      exact List.mem_cons_self _ _
    · rw [getState, if_neg hk] at h
      exact List.mem_cons_of_mem _ (ih h)

theorem keyIdAgree_putState (st : Store) (k : String) (a : Account)
    (hst : KeyIdAgree st) (ha : a.ID = k) :
    KeyIdAgree (putState st k (StoredVal.acct a)) := by
  intro p hp b hb
  rcases mem_putState st k _ p hp with h | h
  · exact hst p h b hb
  · subst h
    simp only at hb
    injection hb with hb
    subst hb
    exact ha

theorem keyIdAgree_delState (st : Store) (k : String)
    (hst : KeyIdAgree st) : KeyIdAgree (delState st k) := by
  intro p hp b hb
  exact hst p (List.mem_of_mem_filter hp) b hb

theorem keyIdAgree_initLedger (st : Store) (hst : KeyIdAgree st) :
    KeyIdAgree (InitLedger st) := by
  have hgen : ∀ (l : List Account) (s : Store), KeyIdAgree s →
      KeyIdAgree (l.foldl (fun s a => putState s a.ID (StoredVal.acct a)) s) := by
    intro l
    induction l with
    | nil => intro s hs; exact hs
    | cons a rest ih =>
      intro s hs
      exact ih _ (keyIdAgree_putState s a.ID a hs rfl)
  exact hgen initialAccounts st hst

theorem createAccount_ok_inv (st : Store) (id owner : String) (b : ℚ)
    (st' : Store) (h : CreateAccount st id owner b = Except.ok st') :
    st' = putState st id (StoredVal.acct ⟨id, owner, b⟩) := by
  unfold CreateAccount at h
  split at h
  · exact absurd h (by simp)
  · injection h with h
    exact h.symm

theorem updateAccount_ok_inv (st : Store) (id owner : String) (b : ℚ)
    (st' : Store) (h : UpdateAccount st id owner b = Except.ok st') :
    st' = putState st id (StoredVal.acct ⟨id, owner, b⟩) := by
  unfold UpdateAccount at h
  split at h
  · injection h with h
    exact h.symm
  · exact absurd h (by simp)

theorem deleteAccount_ok_inv (st : Store) (id : String) (st' : Store)
    (h : DeleteAccount st id = Except.ok st') : st' = delState st id := by
  unfold DeleteAccount at h
  split at h
  · injection h with h
    exact h.symm
  · exact absurd h (by simp)

/-- Claim C10: every store write performed by `InitLedger`, `CreateAccount`,
`UpdateAccount` and `TransferFunds` stores a record whose ID field equals the
key it is written under, so in every reachable world state every decodable
stored Account has an ID equal to its key (and `UpdateAccount` can therefore
never change a stored record's ID, only its Owner and Balance). -/
theorem c10_key_id_agreement (st : Store) (h : Reachable st) :
    KeyIdAgree st := by
  induction h with
  | empty =>
    intro p hp
    cases hp
  | init _ ih => exact keyIdAgree_initLedger _ ih
  | create _ hok ih =>
    rw [createAccount_ok_inv _ _ _ _ _ hok]
    exact keyIdAgree_putState _ _ _ ih rfl
  | update _ hok ih =>
    rw [updateAccount_ok_inv _ _ _ _ _ hok]
    exact keyIdAgree_putState _ _ _ ih rfl
  | delete _ hok ih =>
    rw [deleteAccount_ok_inv _ _ _ hok]
    exact keyIdAgree_delState _ _ ih
  | transfer _ hok ih =>
    obtain ⟨fa, ta, hf, ht, _, hst'⟩ := transferFunds_ok_inv _ _ _ _ _ hok
    have hfID : fa.ID = _ := ih _ (getState_mem _ _ _ hf) fa rfl
    have htID : ta.ID = _ := ih _ (getState_mem _ _ _ ht) ta rfl
    rw [hst']
    exact keyIdAgree_putState _ _ _
      (keyIdAgree_putState _ _ _ ih hfID) htID

/-- Concrete instance of `c10_key_id_agreement`: the seeded ledger satisfies
the key/ID agreement invariant. -/
theorem c10_witness : KeyIdAgree (InitLedger []) :=
  c10_key_id_agreement (InitLedger []) (Reachable.init Reachable.empty)
